import Mathlib

/-!
Verification of the MediaScope analytics aggregation engine.

This file gives a shallow embedding of the aggregation functions of
FirestoreDB (firestore_db.py) and of the compare-entities endpoint of
mediascope_api.py, and proves or refutes the specified properties.

Python strings are modelled as lists of characters so that every
operation is structurally recursive and kernel-computable.  Python
floats are modelled as rationals.  The corpus source is modelled as an
Except value: an error represents a source whose iteration raises.
-/

set_option synthInstance.maxSize 1024

instance exceptDecEq {ε : Type} {α : Type} [DecidableEq ε] [DecidableEq α] :
    DecidableEq (Except ε α) := fun x y =>
  match x, y with
  | .ok a, .ok b =>
    if h : a = b then isTrue (by rw [h]) else isFalse (fun he => h (Except.ok.inj he))
  | .error a, .error b =>
    if h : a = b then isTrue (by rw [h]) else isFalse (fun he => h (Except.error.inj he))
  | .ok _, .error _ => isFalse (fun he => Except.noConfusion he)
  | .error _, .ok _ => isFalse (fun he => Except.noConfusion he)

/-- Bind on an ok value reduces to the continuation. -/
theorem except_bind_ok {ε α β : Type} (a : α) (f : α → Except ε β) :
    ((Except.ok a : Except ε α) >>= f) = f a := rfl

/-- Bind on an error short-circuits. -/
theorem except_bind_error {ε α β : Type} (e : ε) (f : α → Except ε β) :
    ((Except.error e : Except ε α) >>= f) = Except.error e := rfl

/-- Python strings, modelled as lists of characters. -/
abbrev Str := List Char

/-- Coerce a Lean string literal into the model of Python strings. -/
def str (s : String) : Str := s.data

/-- Python string lower-casing (ASCII). -/
def pyLower (s : Str) : Str := s.map Char.toLower

/-- Python lexicographic string comparison by code point. -/
def strLt : Str → Str → Bool
  | [], [] => false
  | [], _ :: _ => true
  | _ :: _, [] => false
  | a :: as, b :: bs => if a < b then true else if b < a then false else strLt as bs

/-- Python substring test: the needle occurs contiguously in the haystack. -/
def strContains (hay needle : Str) : Bool :=
  needle.isPrefixOf hay ||
    match hay with
    | [] => false
    | _ :: t => strContains t needle

/-- Python str.isdigit: non-empty and all characters are digits. -/
def pyIsDigit (s : Str) : Bool := !s.isEmpty && s.all Char.isDigit

/-- Helper for pyTitle: the Boolean records whether the previous character was
alphabetic. -/
def pyTitleAux : Bool → Str → Str
  | _, [] => []
  | prevAlpha, c :: cs =>
    if c.isAlpha then (if prevAlpha then c.toLower else c.toUpper) :: pyTitleAux true cs
    else c :: pyTitleAux false cs

/-- Python str.title: the first letter of every alphabetic run is upper-cased,
the rest lower-cased. -/
def pyTitle (s : Str) : Str := pyTitleAux false s

/-- Python slice s[:-n], defined for lists. -/
def dropRightN (s : Str) (n : Nat) : Str := s.take (s.length - n)

/-- Truthiness of an optional Python string: None and the empty string are falsy. -/
def pyTruthyStr : Option Str → Bool
  | none => false
  | some s => !s.isEmpty

/-- Python s.split for a single comma separator. -/
def splitOnComma : Str → List Str
  | [] => [[]]
  | c :: cs =>
    match splitOnComma cs with
    | [] => [[]]
    | g :: gs => if c = ',' then [] :: g :: gs else (c :: g) :: gs

/-- Python str.strip: remove leading and trailing whitespace. -/
def pyStrip (s : Str) : Str :=
  ((s.dropWhile Char.isWhitespace).reverse.dropWhile Char.isWhitespace).reverse

/-- Decimal digits of a natural number. -/
def natStr (n : Nat) : Str := Nat.toDigits 10 n

/-- Zero-pad a number to two digits, as the Python format 02d does. -/
def pad2 (n : Nat) : Str := if n < 10 then '0' :: natStr n else natStr n

/-- Association-list lookup, modelling Python dict lookup. -/
def alookup [DecidableEq κ] (k : κ) : List (κ × α) → Option α
  | [] => none
  | (k', v) :: rest => if k' = k then some v else alookup k rest

/-- Association-list update, modelling a Python dict write that inserts the
default entry when the key is absent (insertion order is preserved). -/
def updateAssoc [DecidableEq κ] (m : List (κ × α)) (k : κ) (f : α → α) (d : α) :
    List (κ × α) :=
  match m with
  | [] => [(k, f d)]
  | (k', v) :: rest =>
    if k' = k then (k', f v) :: rest else (k', v) :: updateAssoc rest k f d

/-- Stable insertion into a sorted list: x goes after every y with lt y x. -/
def insertBy (lt : α → α → Bool) (x : α) : List α → List α
  | [] => [x]
  | y :: ys => if lt y x then y :: insertBy lt x ys else x :: y :: ys

/-- Stable sort by a strict comparison, modelling Python sorted (which is a
stable sort, so it is extensionally determined by the comparison). -/
def pySortedBy (lt : α → α → Bool) : List α → List α
  | [] => []
  | x :: xs => insertBy lt x (pySortedBy lt xs)

/-- Round to the nearest integer with ties to even, as Python round does. -/
def roundHalfEven (q : ℚ) : ℤ :=
  if q - (⌊q⌋ : ℚ) < 1/2 then ⌊q⌋
  else if (1 : ℚ)/2 < q - (⌊q⌋ : ℚ) then ⌊q⌋ + 1
  else if ⌊q⌋ % 2 = 0 then ⌊q⌋ else ⌊q⌋ + 1

/-- Python round(x, 2). -/
def pyRound2 (q : ℚ) : ℚ := (roundHalfEven (q * 100) : ℚ) / 100

/-!  ## Data model

An EntityMention as stored by the ingestion pipeline
(mediascope_complete_pipeline.insert_entities) has keys text and type.
The optional label field models access to a key that the pipeline never
writes; get_location_analytics reads it. -/

structure Entity where
  text : Str := []
  type : Str := []
  label : Option Str := none
deriving DecidableEq, Repr

structure Article where
  headline : Str := []
  content : Str := []
  full_text : Str := []
  publication_date : Option Str := none
  sentiment_label : Str := str "neutral"
  sentiment_score : ℚ := 0
  topic_label : Option Str := none
  entities : List Entity := []
deriving DecidableEq, Repr

/-!  ## Entity-name normalization (firestore_db._normalize_entity_name) -/

/-- The exact-match table of _normalize_entity_name, in source order. -/
def normalization_map : List (Str × Str) :=
  [ (str "pakist", str "pakistan"),
    (str "pakistani", str "pakistan"),
    (str "pakistanis", str "pakistan"),
    (str "paki", str "pakistan"),
    (str "pakis", str "pakistan"),
    (str "pakistan", str "pakistan"),
    (str "indian", str "india"),
    (str "indians", str "india"),
    (str "india", str "india"),
    (str "palestin", str "palestine"),
    (str "palestine", str "palestine"),
    (str "palestinian", str "palestine"),
    (str "palestinians", str "palestine"),
    (str "plo", str "palestine"),
    (str "syr", str "syria"),
    (str "syria", str "syria"),
    (str "syrian", str "syria"),
    (str "syrians", str "syria"),
    (str "lebanon", str "lebanon"),
    (str "lebanese", str "lebanon"),
    (str "egypt", str "egypt"),
    (str "egyptian", str "egypt"),
    (str "egyptians", str "egypt"),
    (str "american", str "america"),
    (str "americans", str "america"),
    (str "america", str "america"),
    (str "us", str "america"),
    (str "usa", str "america"),
    (str "british", str "britain"),
    (str "britain", str "britain"),
    (str "uk", str "britain"),
    (str "karachi", str "karachi"),
    (str "karachiites", str "karachi"),
    (str "lahore", str "lahore"),
    (str "lahori", str "lahore"),
    (str "lahoris", str "lahore"),
    (str "islamabad", str "islamabad"),
    (str "arab", str "arab"),
    (str "arabs", str "arab"),
    (str "saudi", str "saudi arabia"),
    (str "saudis", str "saudi arabia"),
    (str "saudi arabia", str "saudi arabia"),
    (str "jordan", str "jordan"),
    (str "jordanian", str "jordan"),
    (str "jordanians", str "jordan"),
    (str "kuwait", str "kuwait"),
    (str "kuwaiti", str "kuwait"),
    (str "kuwaitis", str "kuwait"),
    (str "soviet", str "ussr"),
    (str "soviets", str "ussr"),
    (str "ussr", str "ussr"),
    (str "russia", str "russia"),
    (str "russian", str "russia"),
    (str "russians", str "russia"),
    (str "iraq", str "iraq"),
    (str "iraqi", str "iraq"),
    (str "iraqis", str "iraq"),
    (str "iran", str "iran"),
    (str "iranian", str "iran"),
    (str "iranians", str "iran"),
    (str "israel", str "israel"),
    (str "israeli", str "israel"),
    (str "israelis", str "israel"),
    (str "china", str "china"),
    (str "chinese", str "china"),
    (str "japan", str "japan"),
    (str "japanese", str "japan"),
    (str "afghanistan", str "afghanistan"),
    (str "afghan", str "afghanistan"),
    (str "afghans", str "afghanistan") ]

/-- firestore_db._normalize_entity_name: exact table lookup first, then the
suffix fallbacks, otherwise the input unchanged.  Note that in the ans branch
the source only returns when the stripped base is not itself a table key;
when it is, control falls through to the final return of the original text. -/
def _normalize_entity_name (entity_text : Str) : Str :=
  let entity_lower := pyLower entity_text
  match alookup entity_lower normalization_map with
  | some root => pyTitle root
  | none =>
    if (str "ans").isSuffixOf entity_lower ∧ 5 < entity_lower.length then
      let base := dropRightN entity_lower 3
      if alookup base normalization_map = none then pyTitle base else entity_text
    else if (str "ese").isSuffixOf entity_lower ∧ 6 < entity_lower.length then
      let base := dropRightN entity_lower 3
      pyTitle (if (str "in").isSuffixOf base then dropRightN base 2 ++ str "a" else base)
    else if (str "is").isSuffixOf entity_lower ∧ 5 < entity_lower.length then
      pyTitle (dropRightN entity_lower 2)
    else entity_text

example : _normalize_entity_name (str "Pakistanis") = str "Pakistan" := by decide
example : _normalize_entity_name (str "Americans") = str "America" := by decide
example : _normalize_entity_name (str "Soviets") = str "Ussr" := by decide
example : _normalize_entity_name (str "Pakistans") = str "Pakistans" := by decide
example : _normalize_entity_name (str "Germans") = str "Germ" := by decide
example : _normalize_entity_name (str "Chinese") = str "China" := by decide
example : _normalize_entity_name (str "Saudis") = str "Saudi Arabia" := by decide

/-!  ## Dates

The proleptic Gregorian calendar, as used by Python datetime.date and its
isocalendar method.  Days are counted with the Rata Die convention: day 1 is
Monday, January 1 of year 1. -/

def isLeap (y : Nat) : Bool := y % 4 = 0 && (y % 100 ≠ 0 || y % 400 = 0)

def daysInMonth (y m : Nat) : Nat :=
  if m = 2 then (if isLeap y then 29 else 28)
  else if m = 4 ∨ m = 6 ∨ m = 9 ∨ m = 11 then 30
  else 31

def monthDaysBefore (y m : Nat) : Nat :=
  ((List.range (m - 1)).map (fun i => daysInMonth y (i + 1))).sum

def dayOfYear (y m d : Nat) : Nat := monthDaysBefore y m + d

def leapsBefore (y : Nat) : Nat := (y - 1) / 4 - (y - 1) / 100 + (y - 1) / 400

def rataDie (y m d : Nat) : Nat := 365 * (y - 1) + leapsBefore y + dayOfYear y m d

/-- ISO weekday: Monday is 1, Sunday is 7. -/
def isoWeekday (y m d : Nat) : Nat := (rataDie y m d - 1) % 7 + 1

/-- An ISO year has 53 weeks when January 1 falls on Thursday, or on Wednesday
in a leap year. -/
def isLongIsoYear (y : Nat) : Bool :=
  isoWeekday y 1 1 = 4 || (isLeap y && isoWeekday y 1 1 = 3)

def isoWeeksInYear (y : Nat) : Nat := if isLongIsoYear y then 53 else 52

/-- The (ISO year, ISO week) pair of a date, as returned by the first two
components of Python date.isocalendar. -/
def isoCalendar (y m d : Nat) : Nat × Nat :=
  let w := (dayOfYear y m d + 10 - isoWeekday y m d) / 7
  if w = 0 then (y - 1, isoWeeksInYear (y - 1))
  else if isoWeeksInYear y < w then (y + 1, 1)
  else (y, w)

/-- Parse digits into a number; none when the string is empty or non-numeric. -/
def parseNatDigits (s : Str) : Option Nat :=
  if s.isEmpty || !s.all Char.isDigit then none
  else some (s.foldl (fun acc c => acc * 10 + (c.toNat - 48)) 0)

/-- Split a string at the dash separators. -/
def splitOnDash : Str → List Str
  | [] => [[]]
  | c :: cs =>
    match splitOnDash cs with
    | [] => [[]]
    | g :: gs => if c = '-' then [] :: g :: gs else (c :: g) :: gs

/-- Python datetime.fromisoformat on a YYYY-MM-DD string: none models the
ValueError raised on malformed input. -/
def parseDate (s : Str) : Option (Nat × Nat × Nat) :=
  match splitOnDash s with
  | [ys, ms, ds] =>
    if ys.length = 4 ∧ ms.length = 2 ∧ ds.length = 2 then
      match parseNatDigits ys, parseNatDigits ms, parseNatDigits ds with
      | some y, some m, some d =>
        if 1 ≤ y ∧ 1 ≤ m ∧ m ≤ 12 ∧ 1 ≤ d ∧ d ≤ daysInMonth y m then some (y, m, d)
        else none
      | _, _, _ => none
    else none
  | _ => none

example : isoCalendar 1990 3 15 = (1990, 11) := by decide
example : isoCalendar 2021 1 1 = (2020, 53) := by decide
example : isoCalendar 2019 12 30 = (2020, 1) := by decide
example : isoCalendar 2016 12 31 = (2016, 52) := by decide
example : parseDate (str "1990-03-15") = some (1990, 3, 15) := by decide

/-!  ## FirestoreDB aggregation helpers -/

/-- firestore_db._normalize_date restricted to string and missing dates: a
datetime is represented by its formatted YYYY-MM-DD string, None and the
empty string normalize to None. -/
def _normalize_date : Option Str → Option Str
  | none => none
  | some s => if s.isEmpty then none else some s

/-- The entity types skipped by every entity aggregation. -/
def noiseTypes : List Str :=
  [str "DATE", str "TIME", str "CARDINAL", str "ORDINAL",
   str "QUANTITY", str "MONEY", str "PERCENT"]

/-- The type-filter test: skip when a non-empty filter is given and the type
differs, as the Python truthiness test on the optional parameter does. -/
def tfSkip (tf : Option Str) (ty : Str) : Bool :=
  pyTruthyStr tf && ty ≠ tf.getD []

/-- The shared time-bucketing of the over-time aggregations: day takes the
first 10 characters, week formats the calendar year with the ISO week
number, month takes the first 7 characters.  The error models the
ValueError of datetime.fromisoformat on a malformed date. -/
def timeKey (granularity : Str) (pub_date : Str) : Except String Str :=
  if granularity = str "day" then .ok (pub_date.take 10)
  else if granularity = str "week" then
    match parseDate (pub_date.take 10) with
    | none => .error "ValueError: invalid isoformat string"
    | some (y, m, d) => .ok (natStr y ++ ('-' :: 'W' :: pad2 (isoCalendar y m d).2))
  else .ok (pub_date.take 7)

example : timeKey (str "week") (str "1990-03-15") = .ok (str "1990-W11") := by decide
example : timeKey (str "month") (str "1990-03-15") = .ok (str "1990-03") := by decide
example : timeKey (str "week") (str "2021-01-01") = .ok (str "2021-W53") := by decide

/-!  ## get_sentiment_by_entity -/

structure EStat where
  entity_text : Str
  entity_type : Str
  positive_count : Nat := 0
  neutral_count : Nat := 0
  negative_count : Nat := 0
  article_count : Nat := 0
  sentiment_scores : List ℚ := []
deriving DecidableEq, Repr

structure SentimentEntry where
  entity_text : Str
  entity_type : Str
  positive_count : Nat
  neutral_count : Nat
  negative_count : Nat
  article_count : Nat
  avg_sentiment : ℚ
deriving DecidableEq, Repr

/-- The in-place update of one accumulator record for one surviving mention:
the counter selected by the sentiment label, the article_count field and the
score list all advance by one item. -/
def sentBumpPure (sentiment : Str) (score : ℚ) (st : EStat) : EStat :=
  { st with
    positive_count := st.positive_count + (if sentiment = str "positive" then 1 else 0),
    neutral_count := st.neutral_count + (if sentiment = str "neutral" then 1 else 0),
    negative_count := st.negative_count + (if sentiment = str "negative" then 1 else 0),
    article_count := st.article_count + 1,
    sentiment_scores := st.sentiment_scores ++ [score] }

/-- Membership of the sentiment label among the three counter keys; the
dynamic key lookup in the source raises KeyError for any other label. -/
def validSentiment (sentiment : Str) : Bool :=
  sentiment = str "positive" || sentiment = str "neutral" || sentiment = str "negative"

/-- One iteration of the inner entity loop of get_sentiment_by_entity. -/
def sentEntityStep (tf : Option Str) (sentiment : Str) (score : ℚ)
    (m : List (Str × EStat)) (e : Entity) : Except String (List (Str × EStat)) :=
  if noiseTypes.contains e.type then .ok m
  else if e.text.length < 3 || pyIsDigit e.text then .ok m
  else if tfSkip tf e.type then .ok m
  else
    let normalized_text := _normalize_entity_name e.text
    if validSentiment sentiment then
      .ok (updateAssoc m normalized_text (sentBumpPure sentiment score)
             ⟨normalized_text, e.type, 0, 0, 0, 0, []⟩)
    else .error "KeyError: unknown sentiment label"

def sentArticleStep (tf : Option Str) (m : List (Str × EStat)) (a : Article) :
    Except String (List (Str × EStat)) :=
  a.entities.foldlM (sentEntityStep tf a.sentiment_label a.sentiment_score) m

/-- Pop the score list and attach the average sentiment. -/
def sentFinalize (st : EStat) : SentimentEntry :=
  ⟨st.entity_text, st.entity_type, st.positive_count, st.neutral_count,
   st.negative_count, st.article_count,
   if st.sentiment_scores.isEmpty then 0
   else st.sentiment_scores.sum / (st.sentiment_scores.length : ℚ)⟩

/-- firestore_db.get_sentiment_by_entity. -/
def get_sentiment_by_entity (src : Except String (List Article))
    (entity_type : Option Str) (limit : Nat) : Except String (List SentimentEntry) :=
  match (do
      let articles ← src
      let entity_sentiment ← articles.foldlM (sentArticleStep entity_type) []
      let entries := entity_sentiment.map (fun p => sentFinalize p.2)
      let sorted_entities :=
        pySortedBy (fun a b => decide (b.article_count < a.article_count)) entries
      let filtered_entities := sorted_entities.filter (fun e => 2 ≤ e.article_count)
      pure (filtered_entities.take limit) : Except String (List SentimentEntry)) with
  | .ok r => .ok r
  | .error _ => .ok []

/-!  ## get_top_entities -/

structure EntityCount where
  text : Str
  type : Str
  count : Nat
deriving DecidableEq, Repr

/-- The date-range test of get_top_entities: entered only when a bound is
given, and an article is skipped only when its normalized date is truthy and
lies outside a given bound. -/
def topDateSkip (start_date end_date : Option Str) (raw : Option Str) : Bool :=
  if pyTruthyStr start_date || pyTruthyStr end_date then
    let pub_date := _normalize_date raw
    (pyTruthyStr start_date && pyTruthyStr pub_date &&
       strLt (pub_date.getD []) (start_date.getD [])) ||
    (pyTruthyStr end_date && pyTruthyStr pub_date &&
       strLt (end_date.getD []) (pub_date.getD []))
  else false

def topEntityStep (tf : Option Str) (m : List ((Str × Str) × EntityCount)) (e : Entity) :
    List ((Str × Str) × EntityCount) :=
  if noiseTypes.contains e.type then m
  else if e.text.length < 3 || pyIsDigit e.text then m
  else if tfSkip tf e.type then m
  else
    let normalized_text := _normalize_entity_name e.text
    updateAssoc m (normalized_text, e.type)
      (fun c => { c with count := c.count + 1 }) ⟨normalized_text, e.type, 0⟩

def topArticleStep (tf start_date end_date : Option Str)
    (m : List ((Str × Str) × EntityCount)) (a : Article) :
    List ((Str × Str) × EntityCount) :=
  if topDateSkip start_date end_date a.publication_date then m
  else a.entities.foldl (topEntityStep tf) m

/-- firestore_db.get_top_entities. -/
def get_top_entities (src : Except String (List Article)) (entity_type : Option Str)
    (limit : Nat) (start_date end_date : Option Str) : Except String (List EntityCount) :=
  match (do
      let articles ← src
      let entity_counts := articles.foldl (topArticleStep entity_type start_date end_date) []
      let sorted_entities :=
        pySortedBy (fun a b => decide (b.count < a.count)) (entity_counts.map (·.2))
      pure (sorted_entities.take limit) : Except String (List EntityCount)) with
  | .ok r => .ok r
  | .error _ => .ok []

/-!  ## get_entity_cooccurrence -/

structure CoocEntry where
  entity1 : Str
  type1 : Str
  entity2 : Str
  type2 : Str
  cooccurrence_count : Nat
deriving DecidableEq, Repr

/-- All ordered pairs (l i, l j) with i less than j, as itertools.combinations
of size 2 produces them. -/
def combinations2 : List α → List (α × α)
  | [] => []
  | x :: xs => xs.map (fun y => (x, y)) ++ combinations2 xs

/-- The entity-filter loop of get_entity_cooccurrence: surviving mentions are
appended, normalized, in article order. -/
def coocFilterEntity (tf : Option Str) (acc : List (Str × Str)) (e : Entity) :
    List (Str × Str) :=
  if noiseTypes.contains e.type then acc
  else if e.text.length < 3 || pyIsDigit e.text then acc
  else if tfSkip tf e.type then acc
  else acc ++ [(_normalize_entity_name e.text, e.type)]

/-- Alphabetical canonical ordering of one pair. -/
def coocPairKey (e1 e2 : Str × Str) : Str × Str × Str × Str :=
  if strLt e1.1 e2.1 then (e1.1, e1.2, e2.1, e2.2) else (e2.1, e2.2, e1.1, e1.2)

def coocArticleStep (tf : Option Str) (m : List ((Str × Str × Str × Str) × Nat))
    (a : Article) : List ((Str × Str × Str × Str) × Nat) :=
  let filtered_entities := a.entities.foldl (coocFilterEntity tf) []
  (combinations2 filtered_entities).foldl
    (fun m p =>
      if p.1.1 = p.2.1 then m
      else updateAssoc m (coocPairKey p.1 p.2) (· + 1) 0) m

/-- firestore_db.get_entity_cooccurrence. -/
def get_entity_cooccurrence (src : Except String (List Article)) (entity_type : Option Str)
    (min_count : Nat) (limit : Nat) : Except String (List CoocEntry) :=
  match (do
      let articles ← src
      let pair_counts := articles.foldl (coocArticleStep entity_type) []
      let results := (pair_counts.filter (fun p => min_count ≤ p.2)).map
        (fun p => CoocEntry.mk p.1.1 p.1.2.1 p.1.2.2.1 p.1.2.2.2 p.2)
      pure ((pySortedBy (fun a b => decide (b.cooccurrence_count < a.cooccurrence_count))
        results).take limit) : Except String (List CoocEntry)) with
  | .ok r => .ok r
  | .error _ => .ok []

/-!  ## get_topic_distribution -/

structure TopicEntry where
  topic : Str
  count : Nat
  percentage : ℚ
deriving DecidableEq, Repr

def topicStep (acc : List (Str × Nat) × Nat) (a : Article) : List (Str × Nat) × Nat :=
  let topic := a.topic_label.getD (str "Uncategorized")
  (updateAssoc acc.1 topic (· + 1) 0, acc.2 + 1)

/-- firestore_db.get_topic_distribution. -/
def get_topic_distribution (src : Except String (List Article)) :
    Except String (List TopicEntry) :=
  match (do
      let articles ← src
      let tc := articles.foldl topicStep ([], 0)
      let results := tc.1.map (fun p =>
        TopicEntry.mk p.1 p.2
          (if 0 < tc.2 then pyRound2 ((p.2 : ℚ) / (tc.2 : ℚ) * 100) else 0))
      pure (pySortedBy (fun a b => decide (b.count < a.count)) results) :
    Except String (List TopicEntry)) with
  | .ok r => .ok r
  | .error _ => .ok []

/-!  ## get_keyword_frequency_over_time -/

structure DateCount where
  date : Str
  count : Nat
deriving DecidableEq, Repr

def kwStep (keyword_lower : Str) (start_date end_date : Option Str) (granularity : Str)
    (m : List (Str × Nat)) (a : Article) : Except String (List (Str × Nat)) :=
  if !pyTruthyStr a.publication_date then .ok m
  else
    let pub? := _normalize_date a.publication_date
    if !pyTruthyStr pub? then .ok m
    else
      let pub_date := pub?.getD []
      if pyTruthyStr start_date && strLt pub_date (start_date.getD []) then .ok m
      else if pyTruthyStr end_date && strLt (end_date.getD []) pub_date then .ok m
      else
        let text := pyLower (a.headline ++ (' ' :: a.full_text))
        if strContains text keyword_lower then
          (timeKey granularity pub_date).map (fun k => updateAssoc m k (· + 1) 0)
        else .ok m

/-- firestore_db.get_keyword_frequency_over_time. -/
def get_keyword_frequency_over_time (src : Except String (List Article)) (keyword : Str)
    (start_date end_date : Option Str) (granularity : Str) :
    Except String (List DateCount) :=
  match (do
      let articles ← src
      let time_counts ← articles.foldlM
        (kwStep (pyLower keyword) start_date end_date granularity) []
      let results := time_counts.map (fun p => DateCount.mk p.1 p.2)
      pure (pySortedBy (fun a b => strLt a.date b.date) results) :
    Except String (List DateCount)) with
  | .ok r => .ok r
  | .error _ => .ok []

/-!  ## get_entity_mentions_over_time -/

structure TimeSentiment where
  count : Nat := 0
  positive : Nat := 0
  negative : Nat := 0
  neutral : Nat := 0
deriving DecidableEq, Repr

structure EntityTimeEntry where
  date : Str
  count : Nat
  positive : Nat
  negative : Nat
  neutral : Nat
  sentiment_score : ℚ
deriving DecidableEq, Repr

/-- The dynamic-key increment on the per-bucket dict, whose keys are count,
positive, negative and neutral; any other sentiment label raises KeyError. -/
def tsBump (sentiment : Str) (t : TimeSentiment) : Except String TimeSentiment :=
  if sentiment = str "count" then .ok { t with count := t.count + 1 }
  else if sentiment = str "positive" then .ok { t with positive := t.positive + 1 }
  else if sentiment = str "negative" then .ok { t with negative := t.negative + 1 }
  else if sentiment = str "neutral" then .ok { t with neutral := t.neutral + 1 }
  else .error "KeyError: unknown sentiment label"

def entStep (entity_lower : Str) (start_date end_date : Option Str) (granularity : Str)
    (m : List (Str × TimeSentiment)) (a : Article) :
    Except String (List (Str × TimeSentiment)) :=
  if !pyTruthyStr a.publication_date then .ok m
  else
    let pub? := _normalize_date a.publication_date
    if !pyTruthyStr pub? then .ok m
    else
      let pub_date := pub?.getD []
      if pyTruthyStr start_date && strLt pub_date (start_date.getD []) then .ok m
      else if pyTruthyStr end_date && strLt (end_date.getD []) pub_date then .ok m
      else
        if a.entities.any (fun ent => pyLower (_normalize_entity_name ent.text) = entity_lower)
        then do
          let time_key ← timeKey granularity pub_date
          let cur := (alookup time_key m).getD {}
          let cur := { cur with count := cur.count + 1 }
          let cur ← tsBump a.sentiment_label cur
          pure (updateAssoc m time_key (fun _ => cur) {})
        else .ok m

/-- firestore_db.get_entity_mentions_over_time. -/
def get_entity_mentions_over_time (src : Except String (List Article)) (entity_name : Str)
    (start_date end_date : Option Str) (granularity : Str) :
    Except String (List EntityTimeEntry) :=
  match (do
      let articles ← src
      let entity_lower := pyLower (_normalize_entity_name entity_name)
      let time_data ← articles.foldlM (entStep entity_lower start_date end_date granularity) []
      let sorted_data := pySortedBy (fun a b => strLt a.1 b.1) time_data
      pure (sorted_data.map (fun p =>
        EntityTimeEntry.mk p.1 p.2.count p.2.positive p.2.negative p.2.neutral
          (if 0 < p.2.count then
            ((p.2.positive : ℚ) - (p.2.negative : ℚ)) / (p.2.count : ℚ) else 0))) :
    Except String (List EntityTimeEntry)) with
  | .ok r => .ok r
  | .error _ => .ok []

/-!  ## compare_entities (FirestoreDB method) and its endpoint -/

structure CompareData where
  total_mentions : Nat := 0
  positive : Nat := 0
  negative : Nat := 0
  neutral : Nat := 0
  topics : List (Str × Nat) := []
  cooccurrences : List (Str × Nat) := []
deriving DecidableEq, Repr

structure CompareEntry where
  total_mentions : Nat
  positive : Nat
  negative : Nat
  neutral : Nat
  score : ℚ
  top_topics : List (Str × Nat)
  top_cooccurrences : List (Str × Nat)
deriving DecidableEq, Repr

/-- A Python dict write where a later duplicate key overwrites the earlier
value but keeps the first-occurrence position. -/
def dictInsertOver (m : List (Str × α)) (k : Str) (v : α) : List (Str × α) :=
  if (alookup k m).isSome then updateAssoc m k (fun _ => v) v else m ++ [(k, v)]

/-- A Python dict built from a list of key-value pairs. -/
def pyDict (ps : List (Str × α)) : List (Str × α) :=
  ps.foldl (fun m p => dictInsertOver m p.1 p.2) []

def compareMentionStep (normalized_entities : List (Str × Str)) (sentiment topic : Str)
    (acc : List (Str × CompareData) × List Str) (ent : Entity) :
    Except String (List (Str × CompareData) × List Str) :=
  let normalized := pyLower (_normalize_entity_name ent.text)
  match alookup normalized normalized_entities with
  | none => .ok acc
  | some original_name =>
    if validSentiment sentiment then
      .ok (updateAssoc acc.1 original_name
            (fun d =>
              { d with
                total_mentions := d.total_mentions + 1,
                positive := d.positive + (if sentiment = str "positive" then 1 else 0),
                negative := d.negative + (if sentiment = str "negative" then 1 else 0),
                neutral := d.neutral + (if sentiment = str "neutral" then 1 else 0),
                topics := updateAssoc d.topics topic (· + 1) 0 }) {},
           acc.2 ++ [original_name])
    else .error "KeyError: unknown sentiment label"

def compareCoocStep (m : List (Str × CompareData)) (found_entities : List Str) :
    List (Str × CompareData) :=
  (combinations2 found_entities).foldl
    (fun m p =>
      let m := updateAssoc m p.1
        (fun d => { d with cooccurrences := updateAssoc d.cooccurrences p.2 (· + 1) 0 }) {}
      updateAssoc m p.2
        (fun d => { d with cooccurrences := updateAssoc d.cooccurrences p.1 (· + 1) 0 }) {}) m

def compareArticleStep (normalized_entities : List (Str × Str)) (start_date end_date : Option Str)
    (m : List (Str × CompareData)) (a : Article) : Except String (List (Str × CompareData)) :=
  if !pyTruthyStr a.publication_date then .ok m
  else
    let pub? := _normalize_date a.publication_date
    if !pyTruthyStr pub? then .ok m
    else
      let pub_date := pub?.getD []
      if pyTruthyStr start_date && strLt pub_date (start_date.getD []) then .ok m
      else if pyTruthyStr end_date && strLt (end_date.getD []) pub_date then .ok m
      else do
        let topic := a.topic_label.getD (str "Uncategorized")
        let res ← a.entities.foldlM
          (compareMentionStep normalized_entities a.sentiment_label topic) (m, [])
        pure (compareCoocStep res.1 res.2)

/-- firestore_db.compare_entities. -/
def compare_entities (src : Except String (List Article)) (entity_names : List Str)
    (start_date end_date : Option Str) : Except String (List (Str × CompareEntry)) :=
  match (do
      let articles ← src
      let entity_data := pyDict (entity_names.map (fun n => (n, ({} : CompareData))))
      let normalized_entities :=
        pyDict (entity_names.map (fun n => (pyLower (_normalize_entity_name n), n)))
      let final ← articles.foldlM (compareArticleStep normalized_entities start_date end_date)
        entity_data
      pure (final.map (fun p =>
        (p.1, CompareEntry.mk p.2.total_mentions p.2.positive p.2.negative p.2.neutral
          (if 0 < p.2.total_mentions then
            ((p.2.positive : ℚ) - (p.2.negative : ℚ)) / (p.2.total_mentions : ℚ) else 0)
          ((pySortedBy (fun a b => decide (b.2 < a.2)) p.2.topics).take 5)
          ((pySortedBy (fun a b => decide (b.2 < a.2)) p.2.cooccurrences).take 5)))) :
    Except String (List (Str × CompareEntry))) with
  | .ok r => .ok r
  | .error _ => .ok []

structure HTTPErrorM where
  status_code : Nat
  detail : String
deriving DecidableEq, Repr

structure CompareResponse where
  entities : List Str
  comparison : List (Str × CompareEntry)
deriving DecidableEq, Repr

/-- The compare-entities endpoint of mediascope_api.py: split the
comma-separated list, strip each name, reject more than 5 names with a 400
error, otherwise delegate to compare_entities. -/
def compare_entities_endpoint (db : Except String (List Article)) (entities : Str)
    (start_date end_date : Option Str) : Except HTTPErrorM CompareResponse :=
  let entity_list := (splitOnComma entities).map pyStrip
  if 5 < entity_list.length then
    .error ⟨400, "Maximum 5 entities allowed for comparison"⟩
  else
    match compare_entities db entity_list start_date end_date with
    | .ok data => .ok ⟨entity_list, data⟩
    | .error e => .error ⟨500, "Failed to compare entities: " ++ e⟩

/-!  ## get_location_analytics -/

structure LocData where
  count : Nat := 0
  topics : List (Str × Nat) := []
  sentiment_positive : Nat := 0
  sentiment_negative : Nat := 0
  sentiment_neutral : Nat := 0
  over_time : List (Str × Nat) := []
deriving DecidableEq, Repr

structure LocationEntry where
  location : Str
  total_mentions : Nat
  top_topics : List (Str × Nat)
  sentiment_positive : Nat
  sentiment_negative : Nat
  sentiment_neutral : Nat
  sentiment_score : ℚ
  timeline : List DateCount
deriving DecidableEq, Repr

structure LocationResult where
  locations : List LocationEntry
deriving DecidableEq, Repr

/-- The fixed-key sentiment dict of one location; a label outside the three
keys raises KeyError. -/
def locBump (sentiment topic month : Str) (d : LocData) : LocData :=
  { d with
    count := d.count + 1,
    topics := updateAssoc d.topics topic (· + 1) 0,
    sentiment_positive := d.sentiment_positive + (if sentiment = str "positive" then 1 else 0),
    sentiment_negative := d.sentiment_negative + (if sentiment = str "negative" then 1 else 0),
    sentiment_neutral := d.sentiment_neutral + (if sentiment = str "neutral" then 1 else 0),
    over_time := updateAssoc d.over_time month (· + 1) 0 }

/-- One iteration of the entity loop of get_location_analytics.  The source
reads the label key of the mention dict, not the type key. -/
def locEntityStep (sentiment topic month : Str) (m : List (Str × LocData)) (ent : Entity) :
    Except String (List (Str × LocData)) :=
  if ent.label = some (str "GPE") then
    let location := pyTitle (_normalize_entity_name ent.text)
    if validSentiment sentiment then
      .ok (updateAssoc m location (locBump sentiment topic month) {})
    else .error "KeyError: unknown sentiment label"
  else .ok m

def locArticleStep (start_date end_date : Option Str) (m : List (Str × LocData))
    (a : Article) : Except String (List (Str × LocData)) :=
  if !pyTruthyStr a.publication_date then .ok m
  else
    let pub? := _normalize_date a.publication_date
    if !pyTruthyStr pub? then .ok m
    else
      let pub_date := pub?.getD []
      if pyTruthyStr start_date && strLt pub_date (start_date.getD []) then .ok m
      else if pyTruthyStr end_date && strLt (end_date.getD []) pub_date then .ok m
      else
        let topic := a.topic_label.getD (str "Uncategorized")
        let month := pub_date.take 7
        a.entities.foldlM (locEntityStep a.sentiment_label topic month) m

def locFormat (p : Str × LocData) : LocationEntry :=
  ⟨p.1, p.2.count,
   (pySortedBy (fun a b => decide (b.2 < a.2)) p.2.topics).take 3,
   p.2.sentiment_positive, p.2.sentiment_negative, p.2.sentiment_neutral,
   (if 0 < p.2.count then
     ((p.2.sentiment_positive : ℚ) - (p.2.sentiment_negative : ℚ)) / (p.2.count : ℚ) else 0),
   (pySortedBy (fun a b => strLt a.1 b.1) p.2.over_time).map (fun q => DateCount.mk q.1 q.2)⟩

/-- firestore_db.get_location_analytics. -/
def get_location_analytics (src : Except String (List Article))
    (start_date end_date : Option Str) : Except String LocationResult :=
  match (do
      let articles ← src
      let location_data ← articles.foldlM (locArticleStep start_date end_date) []
      let sorted_locations :=
        pySortedBy (fun a b => decide (b.2.count < a.2.count)) location_data
      pure (LocationResult.mk ((sorted_locations.take 20).map locFormat)) :
    Except String LocationResult) with
  | .ok r => .ok r
  | .error _ => .ok ⟨[]⟩

/-!  ## Claim C7: table variants normalize to title-cased canonical roots -/

/-- Claim C7: for every variant string in the normalization lookup table, the
normalizer returns the canonical root of the table converted to title case;
in particular Pakistanis maps to Pakistan, Americans to America and Soviets
to Ussr. -/
theorem normalize_table_variants :
    (∀ p ∈ normalization_map, _normalize_entity_name p.1 = pyTitle p.2) ∧
    _normalize_entity_name (str "Pakistanis") = str "Pakistan" ∧
    _normalize_entity_name (str "Americans") = str "America" ∧
    _normalize_entity_name (str "Soviets") = str "Ussr" := by
  refine ⟨?_, by decide, by decide, by decide⟩
  have h : normalization_map.all
      (fun p => _normalize_entity_name p.1 == pyTitle p.2) = true := by decide
  intro p hp
  exact eq_of_beq (List.all_eq_true.mp h p hp)

/-- Witness for C7: the theorem applied to a concrete table entry. -/
theorem normalize_table_variants_witness :
    _normalize_entity_name (str "pakistani") = pyTitle (str "pakistan") :=
  normalize_table_variants.1 (str "pakistani", str "pakistan") (by decide)

/-!  ## Claim C4: the ans suffix rule -/

/-- Counterexample to C4 as stated: the input Pakistans has no exact table
entry, its lower case ends in ans with length greater than 5, yet the
normalizer returns it unchanged instead of the title-cased stripped
remainder, because the stripped base pakist is itself a table key and the
source then falls through to the final return. -/
theorem normalize_ans_fallthrough_counterexample :
    alookup (pyLower (str "Pakistans")) normalization_map = none ∧
    (str "ans").isSuffixOf (pyLower (str "Pakistans")) = true ∧
    5 < (pyLower (str "Pakistans")).length ∧
    _normalize_entity_name (str "Pakistans") = str "Pakistans" ∧
    _normalize_entity_name (str "Pakistans")
      ≠ pyTitle (dropRightN (pyLower (str "Pakistans")) 3) := by decide

/-- Claim C4 (amended): for an input with no exact table entry whose lower
case ends in ans and has length greater than 5, the normalizer returns the
title-cased remainder obtained by stripping the three-character suffix
provided that remainder is not itself a table key; when the remainder is a
table key the input is returned unchanged. -/
theorem normalize_ans_suffix_rule (s : Str)
    (h1 : alookup (pyLower s) normalization_map = none)
    (h2 : (str "ans").isSuffixOf (pyLower s) = true)
    (h3 : 5 < (pyLower s).length) :
    (alookup (dropRightN (pyLower s) 3) normalization_map = none →
      _normalize_entity_name s = pyTitle (dropRightN (pyLower s) 3)) ∧
    (alookup (dropRightN (pyLower s) 3) normalization_map ≠ none →
      _normalize_entity_name s = s) := by
  refine ⟨fun hb => ?_, fun hb => ?_⟩ <;>
    simp [_normalize_entity_name, h1, h2, h3, hb]

/-- Witness for the amended C4: Germans is not a table key, neither is the
stripped base germ, so the rule fires and yields Germ. -/
theorem normalize_ans_suffix_rule_witness :
    _normalize_entity_name (str "Germans") = pyTitle (dropRightN (pyLower (str "Germans")) 3) :=
  (normalize_ans_suffix_rule (str "Germans") (by decide) (by decide) (by decide)).1 (by decide)

/-!  ## Claim C2: co-occurrence pair generation -/

def pakMention : Entity := { text := str "Pakistan", type := str "GPE" }
def indMention : Entity := { text := str "India", type := str "GPE" }
def chiMention : Entity := { text := str "China", type := str "GPE" }

/-- An article that mentions Pakistan twice and India once. -/
def artPPI : Article :=
  { sentiment_label := str "neutral", entities := [pakMention, pakMention, indMention] }

/-- Counterexample to C2 as stated: entities are not deduplicated per article,
so one single article in which Pakistan occurs twice and India once already
produces the pair (India, Pakistan) with count 2; under the claim the pair
counter could gain at most one increment from one article. -/
theorem cooccurrence_dedup_counterexample :
    get_entity_cooccurrence (.ok [artPPI]) none 2 50
    = .ok [⟨str "India", str "GPE", str "Pakistan", str "GPE", 2⟩] := by decide

/-- Two articles both mentioning Pakistan and India once; the second also
mentions China. -/
def artPI1 : Article :=
  { sentiment_label := str "positive", entities := [pakMention, indMention] }

def artPI2 : Article :=
  { sentiment_label := str "neutral", entities := [indMention, pakMention, chiMention] }

/-- Claim C2 (amended): the filtered and normalized entities of an article are
not deduplicated before pair generation, so a repeated mention contributes
one increment per occurrence pair; for the corpus of exactly two articles
each containing Pakistan and India once, the call with min_count 2 still
returns exactly one pair (India, Pakistan) with count 2, alphabetically
ordered, the China pairs falling below the threshold. -/
theorem cooccurrence_two_article_scenario :
    get_entity_cooccurrence (.ok [artPI1, artPI2]) none 2 50
    = .ok [⟨str "India", str "GPE", str "Pakistan", str "GPE", 2⟩] := by decide

/-!  ## Claim C9: the compare-entities endpoint rejects long lists -/

/-- Counterexample to C9 as stated: a comma-separated list of six names is
not truncated to five and aggregated, it is rejected with a 400 error. -/
theorem compare_endpoint_truncation_counterexample :
    compare_entities_endpoint (.ok []) (str "a,b,c,d,e,f") none none
    = .error ⟨400, "Maximum 5 entities allowed for comparison"⟩ := by decide

/-- Claim C9 (amended): every caller-supplied entity list with more than five
names is rejected with HTTP status 400 before any aggregation runs, rather
than truncated. -/
theorem compare_endpoint_rejects_long_lists (db : Except String (List Article))
    (entities : Str) (start_date end_date : Option Str)
    (h : 5 < ((splitOnComma entities).map pyStrip).length) :
    compare_entities_endpoint db entities start_date end_date
    = .error ⟨400, "Maximum 5 entities allowed for comparison"⟩ := by
  unfold compare_entities_endpoint
  rw [if_pos h]

/-- Witness for the amended C9, at a seven-name list. -/
theorem compare_endpoint_rejects_long_lists_witness :
    compare_entities_endpoint (.ok []) (str "p,q,r,s,t,u,v") none none
    = .error ⟨400, "Maximum 5 entities allowed for comparison"⟩ :=
  compare_endpoint_rejects_long_lists (.ok []) (str "p,q,r,s,t,u,v") none none (by decide)

/-!  ## Claim C6: source failures are swallowed, not propagated -/

/-- Counterexample to C6 as stated: with a source whose iteration raises, the
operations return their ordinary empty results; no typed failure reaches the
caller. -/
theorem source_failure_counterexample :
    get_top_entities (.error "connection refused") none 15 none none = .ok [] ∧
    get_sentiment_by_entity (.error "connection refused") none 20 = .ok [] :=
  ⟨rfl, rfl⟩

/-- Claim C6 (amended): when the corpus source cannot be reached or iterated,
every aggregation operation catches the failure internally and returns its
empty fallback value; no partial results are returned and no typed failure
propagates. -/
theorem source_failure_returns_empty_fallback (msg : String) (tf : Option Str)
    (lim mc : Nat) (sd ed : Option Str) (kw ename gran : Str) (names : List Str) :
    get_top_entities (.error msg) tf lim sd ed = .ok [] ∧
    get_sentiment_by_entity (.error msg) tf lim = .ok [] ∧
    get_entity_cooccurrence (.error msg) tf mc lim = .ok [] ∧
    get_topic_distribution (.error msg) = .ok [] ∧
    get_keyword_frequency_over_time (.error msg) kw sd ed gran = .ok [] ∧
    get_entity_mentions_over_time (.error msg) ename sd ed gran = .ok [] ∧
    compare_entities (.error msg) names sd ed = .ok [] ∧
    get_location_analytics (.error msg) sd ed = .ok ⟨[]⟩ :=
  ⟨rfl, rfl, rfl, rfl, rfl, rfl, rfl, rfl⟩

/-!  ## Claim C5: week bucketing -/

/-- The article of the pinned time-series example, dated March 15, 1990. -/
def art1990 : Article :=
  { headline := str "Pakistan and India talks",
    publication_date := some (str "1990-03-15"),
    sentiment_label := str "positive",
    entities := [pakMention, indMention] }

/-- An article dated January 1, 2021, whose calendar year 2021 differs from
its ISO year 2020 (ISO week 53 of 2020). -/
def art2021 : Article :=
  { headline := str "war in winter", publication_date := some (str "2021-01-01") }

/-- Counterexample to C5 as stated: the week bucket of the 2021-01-01 article
is 2021-W53, built from the calendar year, while the ISO year of that date
is 2020, so the claimed ISO-year key 2020-W53 differs from the key the code
produces. -/
theorem week_bucket_iso_year_counterexample :
    get_keyword_frequency_over_time (.ok [art2021]) (str "war") none none (str "week")
      = .ok [⟨str "2021-W53", 1⟩] ∧
    (isoCalendar 2021 1 1).1 = 2020 ∧
    natStr (isoCalendar 2021 1 1).1 ++ ('-' :: 'W' :: pad2 (isoCalendar 2021 1 1).2)
      = str "2020-W53" ∧
    (str "2021-W53" : Str) ≠ str "2020-W53" := by decide

/-- Claim C5 (amended): for week granularity the bucket key is the calendar
year of the parsed date followed by a W and the ISO week number zero-padded
to two digits; this equals the ISO-year form exactly when the ISO year of
the date coincides with its calendar year.  The pinned instances hold: an
article dated 1990-03-15 is bucketed under 1990-W11 for week granularity and
under 1990-03 for month granularity, in both time-series operations. -/
theorem week_bucket_calendar_year :
    (∀ (s : Str) (y m d : Nat), parseDate (s.take 10) = some (y, m, d) →
      timeKey (str "week") s = .ok (natStr y ++ ('-' :: 'W' :: pad2 (isoCalendar y m d).2)) ∧
      ((isoCalendar y m d).1 = y →
        timeKey (str "week") s
          = .ok (natStr (isoCalendar y m d).1 ++ ('-' :: 'W' :: pad2 (isoCalendar y m d).2)))) ∧
    get_keyword_frequency_over_time (.ok [art1990]) (str "talks") none none (str "week")
      = .ok [⟨str "1990-W11", 1⟩] ∧
    get_keyword_frequency_over_time (.ok [art1990]) (str "talks") none none (str "month")
      = .ok [⟨str "1990-03", 1⟩] ∧
    (get_entity_mentions_over_time (.ok [art1990]) (str "Pakistan") none none
        (str "week")).map (fun l => l.map (fun e => (e.date, e.count)))
      = .ok [(str "1990-W11", 1)] ∧
    (get_entity_mentions_over_time (.ok [art1990]) (str "Pakistan") none none
        (str "month")).map (fun l => l.map (fun e => (e.date, e.count)))
      = .ok [(str "1990-03", 1)] := by
  refine ⟨?_, by decide, by decide, by decide, by decide⟩
  intro s y m d h
  have hkey : timeKey (str "week") s
      = .ok (natStr y ++ ('-' :: 'W' :: pad2 (isoCalendar y m d).2)) := by
    unfold timeKey
    rw [if_neg (by decide), if_pos rfl, h]
  exact ⟨hkey, fun h2 => by rw [h2]; exact hkey⟩

/-- Witness for the amended C5, at the date 1990-03-15. -/
theorem week_bucket_calendar_year_witness :
    timeKey (str "week") (str "1990-03-15")
    = .ok (natStr 1990 ++ ('-' :: 'W' :: pad2 (isoCalendar 1990 3 15).2)) :=
  (week_bucket_calendar_year.1 (str "1990-03-15") 1990 3 15 (by decide)).1

/-!  ## Claim C3: location analytics reads the wrong field -/

theorem locEntityStep_label_none (sentiment topic month : Str)
    (m : List (Str × LocData)) (e : Entity) (he : e.label = none) :
    locEntityStep sentiment topic month m e = .ok m := by
  unfold locEntityStep
  rw [he, if_neg (by simp)]

theorem locFold_label_none (sentiment topic month : Str) (es : List Entity)
    (m : List (Str × LocData)) (h : ∀ e ∈ es, e.label = none) :
    es.foldlM (locEntityStep sentiment topic month) m = .ok m := by
  induction es generalizing m with
  | nil => rfl
  | cons e es ih =>
    rw [List.foldlM_cons, locEntityStep_label_none _ _ _ _ _ (h e (by simp))]
    exact ih m (fun x hx => h x (List.mem_cons_of_mem _ hx))

theorem locArticleStep_label_none (start_date end_date : Option Str)
    (m : List (Str × LocData)) (a : Article)
    (h : ∀ e ∈ a.entities, e.label = none) :
    locArticleStep start_date end_date m a = .ok m := by
  simp only [locArticleStep]
  split
  · rfl
  · split
    · rfl
    · split
      · rfl
      · split
        · rfl
        · exact locFold_label_none _ _ _ _ _ h

theorem locCorpusFold_label_none (start_date end_date : Option Str)
    (arts : List Article) (m : List (Str × LocData))
    (h : ∀ a ∈ arts, ∀ e ∈ a.entities, e.label = none) :
    arts.foldlM (locArticleStep start_date end_date) m = .ok m := by
  induction arts generalizing m with
  | nil => rfl
  | cons a arts ih =>
    rw [List.foldlM_cons, locArticleStep_label_none _ _ _ _ (h a (by simp))]
    exact ih m (fun x hx => h x (List.mem_cons_of_mem _ hx))

/-- Claim C3 is a code bug: get_location_analytics reads the label key of
each mention, but the ingestion pipeline stores mentions with keys text and
type only, so the GPE restriction never matches and the result is always
empty of locations — no mention of type GPE (nor of any type) ever
contributes. -/
theorem location_analytics_label_key_bug (arts : List Article)
    (start_date end_date : Option Str)
    (h : ∀ a ∈ arts, ∀ e ∈ a.entities, e.label = none) :
    get_location_analytics (.ok arts) start_date end_date = .ok ⟨[]⟩ := by
  have hfold := locCorpusFold_label_none start_date end_date arts [] h
  unfold get_location_analytics
  rw [except_bind_ok, hfold, except_bind_ok]
  rfl

/-- Witness for C3: a corpus with one article whose single mention has text
Pakistan and type GPE, exactly as the ingestion pipeline stores it, yields
an empty location list. -/
theorem location_analytics_label_key_bug_witness :
    get_location_analytics
      (.ok [{ publication_date := some (str "1990-03-15"),
              sentiment_label := str "positive",
              entities := [pakMention] }]) none none = .ok ⟨[]⟩ :=
  location_analytics_label_key_bug _ none none (by decide)

/-!  ## Claim C10: articles without dates and the date filters -/

theorem pyTruthyStr_of_normalize_none (raw : Option Str)
    (h : _normalize_date raw = none) : pyTruthyStr raw = false := by
  cases raw with
  | none => rfl
  | some s =>
    by_cases hs : s.isEmpty
    · simp [pyTruthyStr, hs]
    · simp [_normalize_date, hs] at h

theorem topDateSkip_none (start_date end_date : Option Str) (raw : Option Str)
    (h : _normalize_date raw = none) :
    topDateSkip start_date end_date raw = false := by
  simp [topDateSkip, h, pyTruthyStr]

theorem topArticleStep_nodate (tf start_date end_date : Option Str)
    (m : List ((Str × Str) × EntityCount)) (a : Article)
    (ha : _normalize_date a.publication_date = none) :
    topArticleStep tf start_date end_date m a = a.entities.foldl (topEntityStep tf) m := by
  unfold topArticleStep
  rw [topDateSkip_none start_date end_date _ ha]
  rfl

theorem topFold_nodate (tf start_date end_date : Option Str) (arts : List Article)
    (m : List ((Str × Str) × EntityCount))
    (h : ∀ a ∈ arts, _normalize_date a.publication_date = none) :
    arts.foldl (topArticleStep tf start_date end_date) m
    = arts.foldl (topArticleStep tf none none) m := by
  induction arts generalizing m with
  | nil => rfl
  | cons a as ih =>
    rw [List.foldl_cons, List.foldl_cons,
        topArticleStep_nodate tf start_date end_date m a (h a (by simp)),
        topArticleStep_nodate tf none none m a (h a (by simp))]
    exact ih _ (fun x hx => h x (List.mem_cons_of_mem _ hx))

theorem kwStep_nodate (kw : Str) (start_date end_date : Option Str) (gran : Str)
    (m : List (Str × Nat)) (a : Article)
    (ha : _normalize_date a.publication_date = none) :
    kwStep kw start_date end_date gran m a = .ok m := by
  unfold kwStep
  rw [pyTruthyStr_of_normalize_none _ ha]
  rfl

theorem kwFold_nodate (kw : Str) (start_date end_date : Option Str) (gran : Str)
    (arts : List Article) (m : List (Str × Nat))
    (h : ∀ a ∈ arts, _normalize_date a.publication_date = none) :
    arts.foldlM (kwStep kw start_date end_date gran) m = .ok m := by
  induction arts generalizing m with
  | nil => rfl
  | cons a as ih =>
    rw [List.foldlM_cons, kwStep_nodate kw start_date end_date gran m a (h a (by simp))]
    exact ih m (fun x hx => h x (List.mem_cons_of_mem _ hx))

theorem entStep_nodate (en : Str) (start_date end_date : Option Str) (gran : Str)
    (m : List (Str × TimeSentiment)) (a : Article)
    (ha : _normalize_date a.publication_date = none) :
    entStep en start_date end_date gran m a = .ok m := by
  unfold entStep
  rw [pyTruthyStr_of_normalize_none _ ha]
  rfl

theorem entFold_nodate (en : Str) (start_date end_date : Option Str) (gran : Str)
    (arts : List Article) (m : List (Str × TimeSentiment))
    (h : ∀ a ∈ arts, _normalize_date a.publication_date = none) :
    arts.foldlM (entStep en start_date end_date gran) m = .ok m := by
  induction arts generalizing m with
  | nil => rfl
  | cons a as ih =>
    rw [List.foldlM_cons, entStep_nodate en start_date end_date gran m a (h a (by simp))]
    exact ih m (fun x hx => h x (List.mem_cons_of_mem _ hx))

/-- Claim C10: an article whose publication date is missing or normalizes to
None always passes the date filter of get_top_entities, so adding a date
range never excludes such an article and its entity mentions are still
counted (for an all-dateless corpus the result equals the unfiltered one),
while the time-series operations skip such articles entirely and return an
empty series. -/
theorem dateless_articles_top_entities_vs_time_series (arts : List Article)
    (tf : Option Str) (lim : Nat) (start_date end_date : Option Str)
    (kw ename gran : Str)
    (h : ∀ a ∈ arts, _normalize_date a.publication_date = none) :
    (∀ raw : Option Str, _normalize_date raw = none →
      topDateSkip start_date end_date raw = false) ∧
    get_top_entities (.ok arts) tf lim start_date end_date
      = get_top_entities (.ok arts) tf lim none none ∧
    get_keyword_frequency_over_time (.ok arts) kw start_date end_date gran = .ok [] ∧
    get_entity_mentions_over_time (.ok arts) ename start_date end_date gran = .ok [] := by
  refine ⟨fun raw hr => topDateSkip_none start_date end_date raw hr, ?_, ?_, ?_⟩
  · unfold get_top_entities
    simp only [except_bind_ok]
    rw [topFold_nodate tf start_date end_date arts [] h]
  · unfold get_keyword_frequency_over_time
    rw [except_bind_ok, kwFold_nodate (pyLower kw) start_date end_date gran arts [] h,
        except_bind_ok]
    rfl
  · unfold get_entity_mentions_over_time
    simp only [except_bind_ok,
        entFold_nodate (pyLower (_normalize_entity_name ename)) start_date end_date gran
          arts [] h]
    rfl

/-- Witness for C10: a one-article dateless corpus with a Pakistan mention,
under a concrete date range. -/
theorem dateless_articles_top_entities_vs_time_series_witness :
    get_top_entities (.ok [{ entities := [pakMention] }]) none 15
        (some (str "1990-01-01")) (some (str "1990-12-31"))
      = get_top_entities (.ok [{ entities := [pakMention] }]) none 15 none none :=
  (dateless_articles_top_entities_vs_time_series [{ entities := [pakMention] }] none 15
    (some (str "1990-01-01")) (some (str "1990-12-31")) (str "war") (str "Pakistan")
    (str "month") (by decide)).2.1

/-!  ## Association-list lemmas -/

theorem alookup_eq_none [DecidableEq κ] (k : κ) (m : List (κ × α)) :
    alookup k m = none ↔ k ∉ m.map Prod.fst := by
  induction m with
  | nil => simp [alookup]
  | cons q rest ih =>
    obtain ⟨k', v⟩ := q
    by_cases hk : k' = k
    · subst hk; simp [alookup]
    · simp only [alookup, if_neg hk, List.map_cons, List.mem_cons, ih]
      constructor
      · intro hnr hc
        exact hc.elim (fun he => hk he.symm) hnr
      · intro hc
        exact fun hm => hc (Or.inr hm)

theorem alookup_mem [DecidableEq κ] {k : κ} {v : α} {m : List (κ × α)}
    (h : alookup k m = some v) : (k, v) ∈ m := by
  induction m with
  | nil => simp [alookup] at h
  | cons q rest ih =>
    obtain ⟨k', v'⟩ := q
    by_cases hk : k' = k
    · subst hk
      simp [alookup] at h
      subst h
      exact List.mem_cons_self _ _
    · simp only [alookup, if_neg hk] at h
      exact List.mem_cons_of_mem _ (ih h)

theorem alookup_updateAssoc_self [DecidableEq κ] (m : List (κ × α)) (k : κ)
    (f : α → α) (d : α) :
    alookup k (updateAssoc m k f d) = some (f ((alookup k m).getD d)) := by
  induction m with
  | nil => simp [updateAssoc, alookup]
  | cons q rest ih =>
    obtain ⟨k', v⟩ := q
    by_cases hk : k' = k
    · subst hk; simp [updateAssoc, alookup]
    · simp [updateAssoc, alookup, hk, ih]

theorem alookup_updateAssoc_ne [DecidableEq κ] (m : List (κ × α)) (k k'' : κ)
    (f : α → α) (d : α) (hne : k'' ≠ k) :
    alookup k'' (updateAssoc m k f d) = alookup k'' m := by
  induction m with
  | nil => simp [updateAssoc, alookup, Ne.symm hne]
  | cons q rest ih =>
    obtain ⟨k', v⟩ := q
    by_cases hk : k' = k
    · subst hk
      simp only [updateAssoc, if_pos rfl]
      by_cases hq : k' = k''
      · exact absurd hq.symm hne
      · simp [alookup, hq]
    · simp [updateAssoc, alookup, hk, ih]

theorem updateAssoc_keys [DecidableEq κ] (m : List (κ × α)) (k : κ) (f : α → α) (d : α) :
    (updateAssoc m k f d).map Prod.fst
    = if (alookup k m).isNone then m.map Prod.fst ++ [k] else m.map Prod.fst := by
  induction m with
  | nil => simp [updateAssoc, alookup]
  | cons q rest ih =>
    obtain ⟨k', v⟩ := q
    by_cases hk : k' = k
    · subst hk; simp [updateAssoc, alookup]
    · cases hr : alookup k rest <;>
        simp [updateAssoc, alookup, hk, ih, hr]

theorem mem_updateAssoc [DecidableEq κ] {m : List (κ × α)} {k : κ} {f : α → α} {d : α}
    (hnd : (m.map Prod.fst).Nodup) {p : κ × α} (hp : p ∈ updateAssoc m k f d) :
    (p ∈ m ∧ p.1 ≠ k) ∨ (p.1 = k ∧ p.2 = f ((alookup k m).getD d)) := by
  induction m with
  | nil =>
    simp [updateAssoc] at hp
    right
    rw [hp]
    exact ⟨rfl, by simp [alookup]⟩
  | cons q rest ih =>
    obtain ⟨k', v⟩ := q
    rw [List.map_cons, List.nodup_cons] at hnd
    by_cases hk : k' = k
    · subst hk
      rw [show updateAssoc ((k', v) :: rest) k' f d = (k', f v) :: rest from by
        simp [updateAssoc]] at hp
      rcases List.mem_cons.mp hp with rfl | hpr
      · right; exact ⟨rfl, by simp [alookup]⟩
      · refine Or.inl ⟨List.mem_cons_of_mem _ hpr, fun hpk => ?_⟩
        exact hnd.1 (List.mem_map.mpr ⟨p, hpr, hpk⟩)
    · rw [show updateAssoc ((k', v) :: rest) k f d = (k', v) :: updateAssoc rest k f d from by
        simp [updateAssoc, hk]] at hp
      rcases List.mem_cons.mp hp with rfl | hpr
      · exact Or.inl ⟨List.mem_cons_self _ _, hk⟩
      · rcases ih hnd.2 hpr with ⟨hm, hne⟩ | ⟨hpk, hpv⟩
        · exact Or.inl ⟨List.mem_cons_of_mem _ hm, hne⟩
        · refine Or.inr ⟨hpk, ?_⟩
          rwa [show alookup k ((k', v) :: rest) = alookup k rest from by
            simp [alookup, hk]]

/-!  ## Stable sort permutation -/

theorem insertBy_perm (lt : α → α → Bool) (x : α) (ys : List α) :
    (insertBy lt x ys).Perm (x :: ys) := by
  induction ys with
  | nil => exact List.Perm.refl _
  | cons y ys ih =>
    unfold insertBy
    split
    · exact (ih.cons y).trans (List.Perm.swap x y ys)
    · exact List.Perm.refl _

theorem pySortedBy_perm (lt : α → α → Bool) (xs : List α) :
    (pySortedBy lt xs).Perm xs := by
  induction xs with
  | nil => exact List.Perm.refl _
  | cons x xs ih => exact (insertBy_perm lt x _).trans (ih.cons x)

/-!  ## Claim C1: sentiment by entity counts per mention -/

/-- A mention survives the noise-type, length, digit and type filters of the
entity aggregations. -/
def survivingMention (tf : Option Str) (e : Entity) : Bool :=
  !noiseTypes.contains e.type && !(e.text.length < 3 || pyIsDigit e.text) &&
    !tfSkip tf e.type

/-- Number of surviving mentions in a list that normalize to a given name. -/
def mentionsIn (tf : Option Str) (k : Str) (es : List Entity) : Nat :=
  (es.filter (fun e => survivingMention tf e &&
    decide (_normalize_entity_name e.text = k))).length

/-- Total number of surviving mentions of a corpus normalizing to a name. -/
def mentionCount (tf : Option Str) (arts : List Article) (k : Str) : Nat :=
  (arts.map (fun a => mentionsIn tf k a.entities)).sum

/-- The accumulator invariant of get_sentiment_by_entity: every record holds
its own key as entity text, its article_count field equals the number of
processed surviving mentions of that key, the three sentiment counters sum
to it, absent keys have count zero, and keys are distinct. -/
def SentInv (cnt : Str → Nat) (m : List (Str × EStat)) : Prop :=
  (∀ p ∈ m, p.2.entity_text = p.1 ∧
     p.2.article_count = cnt p.1 ∧
     p.2.positive_count + p.2.neutral_count + p.2.negative_count = p.2.article_count) ∧
  (∀ k, alookup k m = none → cnt k = 0) ∧
  (m.map Prod.fst).Nodup

theorem SentInv_congr {cnt cnt' : Str → Nat} {m : List (Str × EStat)}
    (h : ∀ k, cnt k = cnt' k) (hi : SentInv cnt m) : SentInv cnt' m := by
  refine ⟨fun p hp => ?_, fun k hk => (h k) ▸ hi.2.1 k hk, hi.2.2⟩
  obtain ⟨h1, h2, h3⟩ := hi.1 p hp
  exact ⟨h1, (h p.1) ▸ h2, h3⟩

theorem validSentiment_cases {lbl : Str} (h : validSentiment lbl = true) :
    lbl = str "positive" ∨ lbl = str "neutral" ∨ lbl = str "negative" := by
  simpa [validSentiment, Bool.or_eq_true, decide_eq_true_eq, or_assoc] using h

theorem sentEntityStep_inv (tf : Option Str) (lbl : Str) (sc : ℚ)
    {cnt : Str → Nat} {m m' : List (Str × EStat)} (e : Entity)
    (hinv : SentInv cnt m)
    (hstep : sentEntityStep tf lbl sc m e = .ok m') :
    SentInv (fun k => cnt k +
      (if survivingMention tf e && decide (_normalize_entity_name e.text = k)
       then 1 else 0)) m' := by
  unfold sentEntityStep at hstep
  by_cases h1 : noiseTypes.contains e.type = true
  · rw [if_pos h1] at hstep
    obtain rfl := Except.ok.inj hstep
    have hsf : survivingMention tf e = false := by
      unfold survivingMention
      rw [h1]
      simp
    exact SentInv_congr (fun k => by rw [hsf]; simp) hinv
  · rw [if_neg h1] at hstep
    by_cases h2 : (e.text.length < 3 || pyIsDigit e.text) = true
    · rw [if_pos h2] at hstep
      obtain rfl := Except.ok.inj hstep
      have hsf : survivingMention tf e = false := by
        unfold survivingMention
        rw [h2]
        simp
      exact SentInv_congr (fun k => by rw [hsf]; simp) hinv
    · rw [if_neg h2] at hstep
      by_cases h3 : tfSkip tf e.type = true
      · rw [if_pos h3] at hstep
        obtain rfl := Except.ok.inj hstep
        have hsf : survivingMention tf e = false := by
          unfold survivingMention
          rw [h3]
          simp
        exact SentInv_congr (fun k => by rw [hsf]; simp) hinv
      · rw [if_neg h3] at hstep
        have hs : survivingMention tf e = true := by
          simp only [survivingMention, Bool.and_eq_true, Bool.not_eq_true']
          exact ⟨⟨by simpa using h1, by simpa using h2⟩, by simpa using h3⟩
        by_cases hv : validSentiment lbl = true
        · rw [if_pos hv] at hstep
          obtain rfl := Except.ok.inj hstep
          refine ⟨?_, ?_, ?_⟩
          · intro p hp
            rcases mem_updateAssoc hinv.2.2 hp with ⟨hpm, hpne⟩ | ⟨hpk, hpv⟩
            · obtain ⟨a1, a2, a3⟩ := hinv.1 p hpm
              refine ⟨a1, ?_, a3⟩
              have hne : decide (_normalize_entity_name e.text = p.1) = false :=
                decide_eq_false (fun h => hpne h.symm)
              simp [a2, hne]
            · cases hlk : alookup (_normalize_entity_name e.text) m with
              | some v =>
                have hvm := alookup_mem hlk
                obtain ⟨a1, a2, a3⟩ := hinv.1 (_normalize_entity_name e.text, v) hvm
                dsimp only at a1 a2 a3
                rw [hlk] at hpv
                refine ⟨?_, ?_, ?_⟩
                · rw [hpv]; simpa [sentBumpPure] using a1.trans hpk.symm
                · rw [hpv, hpk]
                  simp only [sentBumpPure, Option.getD_some]
                  rw [a2]
                  simp [hs]
                · rw [hpv]
                  rcases validSentiment_cases hv with h | h | h <;>
                    subst h <;>
                    simp +decide [sentBumpPure] <;> omega
              | none =>
                have hz := hinv.2.1 _ hlk
                rw [hlk] at hpv
                refine ⟨?_, ?_, ?_⟩
                · rw [hpv]; simpa [sentBumpPure] using hpk.symm
                · rw [hpv, hpk]
                  simp only [sentBumpPure, Option.getD_none]
                  simp [hz, hs]
                · rw [hpv]
                  rcases validSentiment_cases hv with h | h | h <;>
                    subst h <;>
                    simp +decide [sentBumpPure]
          · intro k hk
            have hkn : k ≠ _normalize_entity_name e.text := by
              intro he
              rw [he, alookup_updateAssoc_self] at hk
              exact Option.noConfusion hk
            rw [alookup_updateAssoc_ne _ _ _ _ _ hkn] at hk
            have hz := hinv.2.1 k hk
            have hne : decide (_normalize_entity_name e.text = k) = false :=
              decide_eq_false (fun h => hkn h.symm)
            simp [hz, hne]
          · rw [updateAssoc_keys]
            split
            · next hnone =>
                have hn : _normalize_entity_name e.text ∉ m.map Prod.fst :=
                  (alookup_eq_none _ m).mp (Option.isNone_iff_eq_none.mp hnone)
                rw [List.nodup_append]
                refine ⟨hinv.2.2, List.nodup_singleton _, ?_⟩
                intro x hx hx1
                rw [List.mem_singleton] at hx1
                exact hn (hx1 ▸ hx)
            · exact hinv.2.2
        · rw [if_neg hv] at hstep
          exact absurd hstep (by simp)

theorem mentionsIn_cons (tf : Option Str) (k : Str) (e : Entity) (es : List Entity) :
    mentionsIn tf k (e :: es)
    = (if survivingMention tf e && decide (_normalize_entity_name e.text = k)
       then 1 else 0) + mentionsIn tf k es := by
  unfold mentionsIn
  rw [List.filter_cons]
  by_cases hc : (survivingMention tf e &&
      decide (_normalize_entity_name e.text = k)) = true
  · rw [if_pos hc, if_pos hc, List.length_cons]
    omega
  · rw [if_neg hc, if_neg hc]
    omega

theorem sentFoldEntities_inv (tf : Option Str) (lbl : Str) (sc : ℚ)
    (es : List Entity) {cnt : Str → Nat} {m m' : List (Str × EStat)}
    (hinv : SentInv cnt m)
    (hfold : es.foldlM (sentEntityStep tf lbl sc) m = .ok m') :
    SentInv (fun k => cnt k + mentionsIn tf k es) m' := by
  induction es generalizing cnt m with
  | nil =>
    rw [List.foldlM_nil] at hfold
    obtain rfl := Except.ok.inj hfold
    exact SentInv_congr (fun k => by simp [mentionsIn]) hinv
  | cons e es ih =>
    rw [List.foldlM_cons] at hfold
    cases hstep : sentEntityStep tf lbl sc m e with
    | error err =>
      rw [hstep, except_bind_error] at hfold
      exact Except.noConfusion hfold
    | ok m1 =>
      rw [hstep, except_bind_ok] at hfold
      have h1 := sentEntityStep_inv tf lbl sc e hinv hstep
      have h2 := ih h1 hfold
      exact SentInv_congr (fun k => by rw [mentionsIn_cons]; omega) h2

theorem mentionCount_cons (tf : Option Str) (a : Article) (arts : List Article)
    (k : Str) :
    mentionCount tf (a :: arts) k
    = mentionsIn tf k a.entities + mentionCount tf arts k := by
  unfold mentionCount
  simp

theorem sentFoldArticles_inv (tf : Option Str) (arts : List Article)
    {cnt : Str → Nat} {m m' : List (Str × EStat)}
    (hinv : SentInv cnt m)
    (hfold : arts.foldlM (sentArticleStep tf) m = .ok m') :
    SentInv (fun k => cnt k + mentionCount tf arts k) m' := by
  induction arts generalizing cnt m with
  | nil =>
    rw [List.foldlM_nil] at hfold
    obtain rfl := Except.ok.inj hfold
    exact SentInv_congr (fun k => by simp [mentionCount]) hinv
  | cons a arts ih =>
    rw [List.foldlM_cons] at hfold
    cases hstep : sentArticleStep tf m a with
    | error err =>
      rw [hstep, except_bind_error] at hfold
      exact Except.noConfusion hfold
    | ok m1 =>
      rw [hstep, except_bind_ok] at hfold
      have h1 := sentFoldEntities_inv tf a.sentiment_label a.sentiment_score
        a.entities hinv hstep
      have h2 := ih h1 hfold
      exact SentInv_congr (fun k => by rw [mentionCount_cons]; omega) h2

def pakMentionPair : Article :=
  { sentiment_label := str "positive", sentiment_score := 1/2,
    entities := [pakMention, pakMention] }

/-- Counterexample to C1 as stated: one single article mentioning Pakistan
twice yields positive_count 2 and article_count 2 for the entity, and the
entity survives the noise threshold although only one article contributes;
under the claim the counters would be 1 and the entity would be excluded. -/
theorem sentiment_by_entity_per_mention_counterexample :
    (get_sentiment_by_entity (.ok [pakMentionPair]) none 20).map
      (fun l => l.map (fun e =>
        (e.entity_text, e.entity_type, e.positive_count, e.neutral_count,
         e.negative_count, e.article_count)))
    = .ok [(str "Pakistan", str "GPE", 2, 0, 0, 2)] := by decide

/-- Claim C1 (amended): in get_sentiment_by_entity the sentiment counters and
the article_count field advance by one per surviving mention, not per
article, and one sentiment score is collected per surviving mention; the
noise threshold therefore excludes entities with fewer than 2 total
surviving mentions (not 2 contributing articles).  Formally: every returned
entry has article_count equal to the total number of surviving mentions of
its entity across the corpus, at least 2 of them, and its three sentiment
counters sum to that mention count. -/
theorem sentiment_by_entity_counts_mentions (arts : List Article) (tf : Option Str)
    (limit : Nat) (l : List SentimentEntry)
    (hres : get_sentiment_by_entity (.ok arts) tf limit = .ok l) :
    ∀ e ∈ l, 2 ≤ e.article_count ∧
      e.article_count = mentionCount tf arts e.entity_text ∧
      e.positive_count + e.neutral_count + e.negative_count = e.article_count := by
  unfold get_sentiment_by_entity at hres
  rw [except_bind_ok] at hres
  cases hfold : arts.foldlM (sentArticleStep tf) [] with
  | error err =>
    rw [hfold] at hres
    have hl : ([] : List SentimentEntry) = l := Except.ok.inj hres
    intro e he
    rw [← hl] at he
    simp at he
  | ok m =>
    rw [hfold, except_bind_ok] at hres
    have hl : ((pySortedBy (fun a b => decide (b.article_count < a.article_count))
        (m.map (fun p => sentFinalize p.2))).filter
          (fun e => decide (2 ≤ e.article_count))).take limit = l :=
      Except.ok.inj hres
    have hinv : SentInv (fun k => mentionCount tf arts k) m := by
      have h0 : SentInv (fun _ => 0) [] :=
        ⟨fun p hp => absurd hp (List.not_mem_nil p), fun _ _ => rfl, List.nodup_nil⟩
      exact SentInv_congr (fun k => by simp) (sentFoldArticles_inv tf arts h0 hfold)
    intro e he
    rw [← hl] at he
    have he1 := List.mem_of_mem_take he
    have he2 := List.mem_filter.mp he1
    have hge : 2 ≤ e.article_count := by simpa using he2.2
    have he3 : e ∈ m.map (fun p => sentFinalize p.2) :=
      (pySortedBy_perm _ _).mem_iff.mp he2.1
    obtain ⟨p, hpm, hpe⟩ := List.mem_map.mp he3
    obtain ⟨a1, a2, a3⟩ := hinv.1 p hpm
    subst hpe
    refine ⟨hge, ?_, a3⟩
    show p.2.article_count = mentionCount tf arts (sentFinalize p.2).entity_text
    have hft : (sentFinalize p.2).entity_text = p.2.entity_text := rfl
    rw [hft, a1]
    exact a2

def wArtPak1 : Article :=
  { sentiment_label := str "positive", sentiment_score := 1,
    entities := [pakMention] }

def wArtPak2 : Article :=
  { sentiment_label := str "neutral", entities := [pakMention] }

/-- The list returned by get_sentiment_by_entity on the two-article witness
corpus. -/
def wSentResult : List SentimentEntry :=
  match get_sentiment_by_entity (.ok [wArtPak1, wArtPak2]) none 20 with
  | .ok l => l
  | .error _ => []

def wSentHead : SentimentEntry := wSentResult.headD ⟨[], [], 0, 0, 0, 0, 0⟩

/-- Witness for the amended C1, at a two-article corpus each mentioning
Pakistan once. -/
theorem sentiment_by_entity_counts_mentions_witness :
    2 ≤ wSentHead.article_count ∧
    wSentHead.article_count
      = mentionCount none [wArtPak1, wArtPak2] wSentHead.entity_text ∧
    wSentHead.positive_count + wSentHead.neutral_count + wSentHead.negative_count
      = wSentHead.article_count :=
  sentiment_by_entity_counts_mentions [wArtPak1, wArtPak2] none 20 wSentResult rfl
    wSentHead (by
      cases hw : wSentResult with
      | nil =>
        have h : wSentResult.length = 1 := by decide
        rw [hw] at h
        simp at h
      | cons x xs => simp [wSentHead, hw])

/-!  ## Claim C8: topic distribution percentages -/

theorem roundHalfEven_sub_abs_le (q : ℚ) : |(roundHalfEven q : ℚ) - q| ≤ 1/2 := by
  have h1 : (⌊q⌋ : ℚ) ≤ q := Int.floor_le q
  have h2 : q < ⌊q⌋ + 1 := Int.lt_floor_add_one q
  unfold roundHalfEven
  by_cases hc1 : q - (⌊q⌋ : ℚ) < 1/2
  · rw [if_pos hc1, abs_of_nonpos (by linarith)]
    linarith
  · rw [if_neg hc1]
    by_cases hc2 : (1 : ℚ)/2 < q - (⌊q⌋ : ℚ)
    · rw [if_pos hc2, Int.cast_add, Int.cast_one, abs_of_nonneg (by linarith)]
      linarith
    · rw [if_neg hc2]
      by_cases hc3 : (⌊q⌋ : ℤ) % 2 = 0
      · rw [if_pos hc3, abs_of_nonpos (by linarith)]
        linarith
      · rw [if_neg hc3, Int.cast_add, Int.cast_one, abs_of_nonneg (by linarith)]
        linarith

theorem pyRound2_sub_abs_le (q : ℚ) : |pyRound2 q - q| ≤ 1/200 := by
  have h := roundHalfEven_sub_abs_le (q * 100)
  have heq : pyRound2 q - q = ((roundHalfEven (q * 100) : ℚ) - q * 100) / 100 := by
    unfold pyRound2
    ring
  rw [heq, abs_div, abs_of_nonneg (by norm_num : (0 : ℚ) ≤ 100)]
  linarith

theorem sum_map_pyRound2_abs_le (xs : List ℚ) :
    |(xs.map pyRound2).sum - xs.sum| ≤ (xs.length : ℚ) * (1/200) := by
  induction xs with
  | nil => simp
  | cons x xs ih =>
    rw [List.map_cons, List.sum_cons, List.sum_cons, List.length_cons]
    have hx := pyRound2_sub_abs_le x
    calc |pyRound2 x + (xs.map pyRound2).sum - (x + xs.sum)|
        = |(pyRound2 x - x) + ((xs.map pyRound2).sum - xs.sum)| := by ring_nf
      _ ≤ |pyRound2 x - x| + |(xs.map pyRound2).sum - xs.sum| := abs_add _ _
      _ ≤ 1/200 + (xs.length : ℚ) * (1/200) := add_le_add hx ih
      _ = ((xs.length + 1 : ℕ) : ℚ) * (1/200) := by push_cast; ring

theorem updateAssoc_snd_sum (m : List (Str × Nat)) (k : Str) :
    ((updateAssoc m k (· + 1) 0).map Prod.snd).sum = (m.map Prod.snd).sum + 1 := by
  induction m with
  | nil => simp [updateAssoc]
  | cons q rest ih =>
    obtain ⟨k', v⟩ := q
    by_cases hk : k' = k
    · subst hk
      simp [updateAssoc]
      omega
    · simp [updateAssoc, hk, ih]
      omega

theorem topicFold_inv (arts : List Article) (acc : List (Str × Nat) × Nat) :
    (arts.foldl topicStep acc).2 = acc.2 + arts.length ∧
    ((arts.foldl topicStep acc).1.map Prod.snd).sum
      = (acc.1.map Prod.snd).sum + arts.length := by
  induction arts generalizing acc with
  | nil => simp
  | cons a arts ih =>
    rw [List.foldl_cons]
    refine ⟨?_, ?_⟩
    · rw [(ih (topicStep acc a)).1]
      show acc.2 + 1 + arts.length = acc.2 + (a :: arts).length
      simp
      omega
    · rw [(ih (topicStep acc a)).2]
      show ((updateAssoc acc.1 (a.topic_label.getD (str "Uncategorized"))
        (· + 1) 0).map Prod.snd).sum + arts.length = _
      rw [updateAssoc_snd_sum]
      show (acc.1.map Prod.snd).sum + 1 + arts.length
        = (acc.1.map Prod.snd).sum + (a :: arts).length
      simp
      omega

theorem sum_div_mul (ps : List (Str × Nat)) (T : ℚ) :
    (ps.map (fun p => (p.2 : ℚ) / T * 100)).sum
      = ((ps.map Prod.snd).sum : ℚ) / T * 100 := by
  induction ps with
  | nil => simp
  | cons p ps ih =>
    rw [List.map_cons, List.sum_cons, ih, List.map_cons, List.sum_cons]
    push_cast
    ring

/-- Claim C8 (amended): each returned bucket carries the percentage
count / total * 100 rounded to 2 decimals; each rounding introduces an error
of at most 1/200, so the percentages sum to 100 within (number of buckets)
divided by 200 — within the claimed 0.1 only when at most 20 buckets are
returned. -/
theorem topic_distribution_rounding (arts : List Article) (l : List TopicEntry)
    (hne : arts ≠ []) (hres : get_topic_distribution (.ok arts) = .ok l) :
    (∀ e ∈ l, e.percentage = pyRound2 ((e.count : ℚ) / (arts.length : ℚ) * 100)) ∧
    |(l.map TopicEntry.percentage).sum - 100| ≤ (l.length : ℚ) * (1/200) := by
  unfold get_topic_distribution at hres
  rw [except_bind_ok] at hres
  have hl := Except.ok.inj hres
  have hfi := topicFold_inv arts ([], 0)
  have hlen0 : 0 < arts.length := List.length_pos.mpr hne
  have htot : (arts.foldl topicStep ([], 0)).2 = arts.length := by
    simpa using hfi.1
  have hcnt : ((arts.foldl topicStep ([], 0)).1.map Prod.snd).sum = arts.length := by
    simpa using hfi.2
  constructor
  · intro e he
    rw [← hl] at he
    have he2 := (pySortedBy_perm _ _).mem_iff.mp he
    obtain ⟨p, hpm, hpe⟩ := List.mem_map.mp he2
    subst hpe
    show (if 0 < (arts.foldl topicStep ([], 0)).2
        then pyRound2 ((p.2 : ℚ) / ((arts.foldl topicStep ([], 0)).2 : ℚ) * 100)
        else 0) = _
    rw [htot, if_pos hlen0]
  · rw [← hl]
    have hperm := pySortedBy_perm (fun a b => decide (b.count < a.count))
      ((arts.foldl topicStep ([], 0)).1.map (fun p =>
        TopicEntry.mk p.1 p.2
          (if 0 < (arts.foldl topicStep ([], 0)).2
           then pyRound2 ((p.2 : ℚ) / ((arts.foldl topicStep ([], 0)).2 : ℚ) * 100)
           else 0)))
    rw [(hperm.map TopicEntry.percentage).sum_eq, hperm.length_eq]
    rw [List.map_map, List.length_map]
    have hmc : ((arts.foldl topicStep ([], 0)).1.map
        (TopicEntry.percentage ∘ (fun p =>
          TopicEntry.mk p.1 p.2
            (if 0 < (arts.foldl topicStep ([], 0)).2
             then pyRound2 ((p.2 : ℚ) / ((arts.foldl topicStep ([], 0)).2 : ℚ) * 100)
             else 0))))
        = ((arts.foldl topicStep ([], 0)).1.map
            (fun p => (p.2 : ℚ) / (arts.length : ℚ) * 100)).map pyRound2 := by
      rw [List.map_map]
      refine List.map_congr_left (fun p _ => ?_)
      show (if 0 < (arts.foldl topicStep ([], 0)).2
        then pyRound2 ((p.2 : ℚ) / ((arts.foldl topicStep ([], 0)).2 : ℚ) * 100)
        else 0) = _
      rw [htot, if_pos hlen0]
      rfl
    rw [hmc]
    have hsum : ((arts.foldl topicStep ([], 0)).1.map
        (fun p => (p.2 : ℚ) / (arts.length : ℚ) * 100)).sum = 100 := by
      rw [sum_div_mul, hcnt, div_self (Nat.cast_ne_zero.mpr (by omega))]
      norm_num
    have hb := sum_map_pyRound2_abs_le ((arts.foldl topicStep ([], 0)).1.map
      (fun p => (p.2 : ℚ) / (arts.length : ℚ) * 100))
    rw [hsum] at hb
    rw [List.length_map] at hb
    exact hb

/-- A corpus of 32 articles with 32 distinct topics, one article each: every
bucket gets 1/32 of the corpus, and 3.125 percent rounds to 3.12. -/
def corpus32 : List Article :=
  (List.range 32).map (fun i => { topic_label := some [Char.ofNat (65 + i)] })

def cePct : ℚ := pyRound2 ((1 : ℚ) / 32 * 100)

def ceResult : List TopicEntry :=
  (List.range 32).map (fun i => ⟨[Char.ofNat (65 + i)], 1, cePct⟩)

theorem ceResult_eval : get_topic_distribution (.ok corpus32) = .ok ceResult := rfl

theorem sum_map_const_range (n : Nat) (c : ℚ) :
    ((List.range n).map (fun _ => c)).sum = n * c := by
  induction n with
  | zero => simp
  | succ n ih =>
    rw [List.range_succ, List.map_append, List.sum_append, ih]
    push_cast
    simp
    ring

theorem cePct_eq : cePct = 78/25 := by
  unfold cePct pyRound2 roundHalfEven
  norm_num

/-- Counterexample to C8 as stated: for the non-empty 32-topic corpus every
percentage is round(3.125, 2) = 3.12 (round half to even), the returned
percentages sum to 99.84, and the distance from 100 is 0.16, which exceeds
the claimed epsilon 0.1. -/
theorem topic_distribution_sum_counterexample :
    corpus32 ≠ [] ∧
    (get_topic_distribution (.ok corpus32)).map
        (fun l => (l.map TopicEntry.percentage).sum) = .ok (2496/25) ∧
    (1 : ℚ)/10 < |(2496/25 : ℚ) - 100| := by
  refine ⟨by decide, ?_, by rw [abs_of_nonpos (by norm_num)]; norm_num⟩
  rw [ceResult_eval]
  show Except.ok ((ceResult.map TopicEntry.percentage).sum) = _
  have h1 : ceResult.map TopicEntry.percentage = (List.range 32).map (fun _ => cePct) := by
    unfold ceResult
    rw [List.map_map]
    rfl
  rw [h1, sum_map_const_range, cePct_eq]
  norm_num

def wTopicArt : Article := { topic_label := some (str "news") }

def wTopicResult : List TopicEntry :=
  match get_topic_distribution (.ok [wTopicArt]) with
  | .ok l => l
  | .error _ => []

/-- Witness for the amended C8, at a one-article corpus. -/
theorem topic_distribution_rounding_witness :
    |(wTopicResult.map TopicEntry.percentage).sum - 100|
      ≤ (wTopicResult.length : ℚ) * (1/200) :=
  (topic_distribution_rounding [wTopicArt] wTopicResult (by decide) rfl).2
